import Mathlib

/-!
Shallow embedding of the WebGPU ray tracer in `src/main.ts`.

The compute-shader side (WGSL strings `hittableShapesShader` and the kernel
module in `createComputeShader`) is pure arithmetic on 3-component float
vectors; it is embedded over `ℝ`, with WGSL's `sqrt` as `Real.sqrt` and
`normalize v = v / length v` componentwise.  WGSL `var rec: HitRecord;`
zero-initialises every field, which `emptyHitRecord` mirrors.

The host orchestration (texture creation, bind groups, the `ResizeObserver`
callback) is embedded as a trace of GPU-API operations interpreted over a
small resource state, recording which textures have been created, destroyed
and bound.
-/

/-- Component vector of three floats, `vec3<f32>` abstracted over `ℝ`. -/
structure Vec3 where
  x : ℝ
  y : ℝ
  z : ℝ

noncomputable def Vec3.add (a b : Vec3) : Vec3 := ⟨a.x + b.x, a.y + b.y, a.z + b.z⟩

noncomputable def Vec3.sub (a b : Vec3) : Vec3 := ⟨a.x - b.x, a.y - b.y, a.z - b.z⟩

noncomputable def Vec3.neg (a : Vec3) : Vec3 := ⟨-a.x, -a.y, -a.z⟩

/-- Scalar times vector, WGSL `c * v` (or `v * c`). -/
noncomputable def Vec3.smul (c : ℝ) (v : Vec3) : Vec3 := ⟨c * v.x, c * v.y, c * v.z⟩

/-- Vector divided by a scalar, WGSL `v / c`. -/
noncomputable def Vec3.sdiv (v : Vec3) (c : ℝ) : Vec3 := ⟨v.x / c, v.y / c, v.z / c⟩

noncomputable instance : Add Vec3 := ⟨Vec3.add⟩

noncomputable instance : Sub Vec3 := ⟨Vec3.sub⟩

/-- WGSL `dot(a, b)`. -/
noncomputable def dot (a b : Vec3) : ℝ := a.x * b.x + a.y * b.y + a.z * b.z

/-- WGSL `length(v) = sqrt(dot(v, v))`. -/
noncomputable def Vec3.length (v : Vec3) : ℝ := Real.sqrt (dot v v)

/-- WGSL `normalize(v) = v / length(v)`. -/
noncomputable def Vec3.normalize (v : Vec3) : Vec3 :=
  ⟨v.x / v.length, v.y / v.length, v.z / v.length⟩

/-- Source `struct Ray` (kernel module, lines 99-102). -/
structure Ray where
  origin : Vec3
  direction : Vec3

/-- Source `struct Sphere` (lines 26-29). -/
structure Sphere where
  center : Vec3
  radius : ℝ

/-- Source `struct HitRecord` (lines 31-37). -/
structure HitRecord where
  p : Vec3
  normal : Vec3
  t : ℝ
  hit : Bool
  front_face : Bool

/-- Source `struct FaceNormalRecord` (lines 39-42). -/
structure FaceNormalRecord where
  front_face : Bool
  normal : Vec3

/-- WGSL `var rec: HitRecord;` zero-initialises all fields; `hit_sphere`
additionally sets `rec.hit = false` before any early return. -/
noncomputable def emptyHitRecord : HitRecord := ⟨⟨0, 0, 0⟩, ⟨0, 0, 0⟩, 0, false, false⟩

/-- Source `rayAt(ray, t) = ray.origin + ray.direction * t` (lines 126-128). -/
noncomputable def rayAt (ray : Ray) (t : ℝ) : Vec3 :=
  ray.origin + Vec3.smul t ray.direction

/-- Source `setFaceNormal(rec, r, outwardNormal)` (lines 44-55): front face
iff `dot(r.direction, outwardNormal) < 0`; the normal is passed through when
front-facing and negated otherwise.  The `rec` argument is unused, as in the
source. -/
noncomputable def setFaceNormal (_rec : HitRecord) (r : Ray) (outwardNormal : Vec3) :
    FaceNormalRecord :=
  if dot r.direction outwardNormal < 0 then ⟨true, outwardNormal⟩
  else ⟨false, Vec3.neg outwardNormal⟩

/-- Source `let oc = sphere.center - r.origin` in `hit_sphere` (line 61). -/
noncomputable def hs_oc (sphere : Sphere) (r : Ray) : Vec3 := sphere.center - r.origin

/-- Source `let a = dot(r.direction, r.direction)` (line 62). -/
noncomputable def hs_a (r : Ray) : ℝ := dot r.direction r.direction

/-- Source `let h = dot(r.direction, oc)` (line 63). -/
noncomputable def hs_h (sphere : Sphere) (r : Ray) : ℝ := dot r.direction (hs_oc sphere r)

/-- Source `let c = dot(oc, oc) - sphere.radius * sphere.radius` (line 64). -/
noncomputable def hs_c (sphere : Sphere) (r : Ray) : ℝ :=
  dot (hs_oc sphere r) (hs_oc sphere r) - sphere.radius * sphere.radius

/-- Source `let discriminant = h * h - a * c` (line 66). -/
noncomputable def hs_disc (sphere : Sphere) (r : Ray) : ℝ :=
  hs_h sphere r * hs_h sphere r - hs_a r * hs_c sphere r

/-- The smaller candidate root `(h - sqrt(discriminant)) / a` (line 74). -/
noncomputable def hs_root1 (sphere : Sphere) (r : Ray) : ℝ :=
  (hs_h sphere r - Real.sqrt (hs_disc sphere r)) / hs_a r

/-- The larger candidate root `(h + sqrt(discriminant)) / a` (line 76). -/
noncomputable def hs_root2 (sphere : Sphere) (r : Ray) : ℝ :=
  (hs_h sphere r + Real.sqrt (hs_disc sphere r)) / hs_a r

/-- The record `hit_sphere` populates once a root is accepted (lines 82-88):
`t`, `p = rayAt(r, t)`, the geometric outward normal `(p - center) / radius`,
then the face-normal orientation, then `hit = true`. -/
noncomputable def hitRecordAt (sphere : Sphere) (r : Ray) (root : ℝ) : HitRecord :=
  let p := rayAt r root
  let outN := Vec3.sdiv (p - sphere.center) sphere.radius
  let fn := setFaceNormal ⟨p, outN, root, false, false⟩ r outN
  ⟨p, fn.normal, root, true, fn.front_face⟩

/-- Source `hit_sphere(sphere, r, ray_tmin, ray_tmax)` (lines 57-91): return
the zeroed record when the discriminant is negative; otherwise try the
smaller root, rejecting it when `root <= ray_tmin || ray_tmax <= root`, then
the larger root under the same test, and return the zeroed record when both
are rejected. -/
noncomputable def hit_sphere (sphere : Sphere) (r : Ray) (ray_tmin ray_tmax : ℝ) :
    HitRecord :=
  if hs_disc sphere r < 0 then emptyHitRecord
  else if hs_root1 sphere r ≤ ray_tmin ∨ ray_tmax ≤ hs_root1 sphere r then
    if hs_root2 sphere r ≤ ray_tmin ∨ ray_tmax ≤ hs_root2 sphere r then emptyHitRecord
    else hitRecordAt sphere r (hs_root2 sphere r)
  else hitRecordAt sphere r (hs_root1 sphere r)

/-- Source `lerp(a, b, t) = a * (1.0 - t) + b * t` (lines 111-113). -/
noncomputable def lerp (a b : Vec3) (t : ℝ) : Vec3 := Vec3.smul (1 - t) a + Vec3.smul t b

/-- The sphere literal `Sphere(vec3<f32>(0.0, 0.0, -1.0), 0.5)` that
`rayColor` intersects against (line 116). -/
noncomputable def theSphere : Sphere := ⟨⟨0, 0, -1⟩, 0.5⟩

/-- The body of `rayColor` after the `hit_sphere` call (lines 117-123),
factored over the record it branches on: when `rec.t > 0.0` shade by the
recomputed unit normal, else return the vertical background gradient. -/
noncomputable def shadeHit (ray : Ray) (rec1 : HitRecord) : Vec3 :=
  if rec1.t > 0 then
    let N := Vec3.normalize (rayAt ray rec1.t - ⟨0, 0, -1⟩)
    Vec3.smul 0.5 ⟨N.x + 1, N.y + 1, N.z + 1⟩
  else
    let unit_direction := Vec3.normalize ray.direction
    let a := 0.5 * (unit_direction.y + 1)
    lerp ⟨1, 1, 1⟩ ⟨0.5, 0.7, 1⟩ a

/-- Source `rayColor(ray)` (lines 115-124): intersect the fixed sphere with
`tMin = 0.0`, `tMax = 10000.0` and shade the resulting record. -/
noncomputable def rayColor (ray : Ray) : Vec3 :=
  shadeHit ray (hit_sphere theSphere ray 0 10000)

/-- The raw, unnormalized camera direction `(uv.x * aspectRatio, uv.y, -1.0)`
of `createRay` (line 107), named for comparison with what `createRay`
actually returns. -/
noncomputable def rawDirection (dims : ℕ × ℕ) (uv : ℝ × ℝ) : Vec3 :=
  ⟨uv.1 * ((dims.1 : ℝ) / (dims.2 : ℝ)), uv.2, -1⟩

/-- Source `createRay(uv)` (lines 104-109): aspect ratio from the output
texture's dimensions, origin `(0,0,0)`, and the direction
`(uv.x * aspectRatio, uv.y, -1.0)` passed through `normalize` in the `Ray`
constructor call. -/
noncomputable def createRay (dims : ℕ × ℕ) (uv : ℝ × ℝ) : Ray :=
  let aspectRatio := (dims.1 : ℝ) / (dims.2 : ℝ)
  let origin : Vec3 := ⟨0, 0, 0⟩
  let direction : Vec3 := ⟨uv.1 * aspectRatio, uv.2, -1⟩
  ⟨origin, Vec3.normalize direction⟩

/-- The kernel's pixel-center device coordinate
`uv = (vec2<f32>(coords) + 0.5) / vec2<f32>(dims) * 2.0 - 1.0` (line 141). -/
noncomputable def pixelUV (dims coords : ℕ × ℕ) : ℝ × ℝ :=
  (((coords.1 : ℝ) + 0.5) / (dims.1 : ℝ) * 2 - 1,
   ((coords.2 : ℝ) + 0.5) / (dims.2 : ℝ) * 2 - 1)

/-- The color the kernel computes for one in-bounds pixel (lines 141-145):
`rayColor(createRay(uv))` with alpha `1.0` appended by `textureStore`. -/
noncomputable def pixelColor (dims coords : ℕ × ℕ) : Vec3 × ℝ :=
  (rayColor (createRay dims (pixelUV dims coords)), 1)

/-- One invocation of the compute entry `main` (lines 132-146): `none` when
the guard `coords.x >= dims.x || coords.y >= dims.y` fires (no write),
otherwise the single `textureStore` it performs, as written coordinate and
stored value. -/
noncomputable def kernelMain (dims coords : ℕ × ℕ) :
    Option ((ℕ × ℕ) × (Vec3 × ℝ)) :=
  if coords.1 ≥ dims.1 ∨ coords.2 ≥ dims.2 then none
  else some (coords, pixelColor dims coords)

/-- Apply one invocation's optional `textureStore` to an image, modelled as a
map from coordinate to the last value stored there. -/
noncomputable def writeTexture (img : (ℕ × ℕ) → Option (Vec3 × ℝ))
    (w : Option ((ℕ × ℕ) × (Vec3 × ℝ))) : (ℕ × ℕ) → Option (Vec3 × ℝ) :=
  match w with
  | none => img
  | some (c, col) => fun q => if q = c then some col else img q

/-- Execute the kernel invocations of `ids` in the given order over an
initial image. -/
noncomputable def runKernel (dims : ℕ × ℕ) (ids : List (ℕ × ℕ))
    (img : (ℕ × ℕ) → Option (Vec3 × ℝ)) : (ℕ × ℕ) → Option (Vec3 × ℝ) :=
  ids.foldl (fun im c => writeTexture im (kernelMain dims c)) img

/-- Host-side GPU API calls the orchestration code in `main.ts` issues, as
far as they touch resource lifetimes and per-frame work. -/
inductive GpuOp where
  | createShaderModule
  | createComputePipeline
  | createTexture
  | createComputeBindGroup
  | createRenderBindGroup
  | destroyTexture (id : ℕ)
  | configureContext (w h : ℕ)
  | beginComputePass
  | dispatchWorkgroups (x y : ℕ)
  | beginRenderPass
  | draw (n : ℕ)
  | submit
deriving DecidableEq

/-- Whether an operation destroys a texture. -/
def GpuOp.isDestroy : GpuOp → Bool
  | .destroyTexture _ => true
  | _ => false

/-- Resource state of the host: the next fresh texture id, the textures
created and not destroyed, the most recently created texture, and the
texture referenced by the compute and render binding sets. -/
structure GpuState where
  nextId : ℕ
  live : List ℕ
  lastCreated : Option ℕ
  computeBound : Option ℕ
  renderBound : Option ℕ
deriving DecidableEq

/-- Interpret one GPU operation: texture creation allocates a fresh live id,
destruction removes it, and bind-group creation references the most recently
created texture (as both bind groups in `main.ts` are built from
`computeShader.texture`). -/
def applyOp (s : GpuState) (op : GpuOp) : GpuState :=
  match op with
  | .createTexture =>
      ⟨s.nextId + 1, s.nextId :: s.live, some s.nextId, s.computeBound, s.renderBound⟩
  | .destroyTexture i =>
      ⟨s.nextId, s.live.erase i, s.lastCreated, s.computeBound, s.renderBound⟩
  | .createComputeBindGroup =>
      ⟨s.nextId, s.live, s.lastCreated, s.lastCreated, s.renderBound⟩
  | .createRenderBindGroup =>
      ⟨s.nextId, s.live, s.lastCreated, s.computeBound, s.lastCreated⟩
  | _ => s

/-- Interpret a list of GPU operations in order. -/
def applyOps (s : GpuState) (ops : List GpuOp) : GpuState := ops.foldl applyOp s

/-- State before any GPU call has been made. -/
def initGpuState : GpuState := ⟨0, [], none, none, none⟩

/-- The operations `createComputeShader` issues (`main.ts` lines 94-173):
shader module, compute pipeline, the storage texture, and the compute bind
group over that texture.  No call destroys the previously held texture. -/
def createComputeShaderOps : List GpuOp :=
  [.createShaderModule, .createComputePipeline, .createTexture, .createComputeBindGroup]

/-- The operation `updateBindGroups` issues (lines 253-261): the render bind
group over `computeShader.texture`. -/
def updateBindGroupsOps : List GpuOp := [.createRenderBindGroup]

/-- The per-frame work `render` submits (lines 265-290): a compute pass
dispatching `ceil(w/8) x ceil(h/8)` workgroups, then a render pass drawing a
4-vertex strip, then one queue submission. -/
def renderOps (w h : ℕ) : List GpuOp :=
  [.beginComputePass, .dispatchWorkgroups ((w + 7) / 8) ((h + 7) / 8),
   .beginRenderPass, .draw 4, .submit]

/-- Source `const width = 400` (line 236). -/
def mainWidth : ℕ := 400

/-- Source `const aspectRation = 16.0 / 9.0` (line 237). -/
def aspectRation : ℚ := 16 / 9

/-- Source `const height = Math.floor(width / aspectRation)` (line 238). -/
def mainHeight : ℕ := Nat.floor ((mainWidth : ℚ) / aspectRation)

/-- The `ResizeObserver` callback (lines 292-315) for one entry: it sets
`canvas.width`/`canvas.height` to the module constants `width`/`height`
clamped by `Math.max(1, Math.min(_, device.limits.maxTextureDimension2D))`
(the requested entry size is never read), reconfigures the context at that
size, re-runs `createComputeShader`, re-runs `updateBindGroups`, and calls
`render()`.  Returns the dimensions it applied and the operation trace. -/
def resizeCallback (requested : ℕ × ℕ) (maxDim : ℕ) : (ℕ × ℕ) × List GpuOp :=
  let cw := max 1 (min mainWidth maxDim)
  let ch := max 1 (min mainHeight maxDim)
  ((cw, ch),
    GpuOp.configureContext cw ch ::
      (createComputeShaderOps ++ updateBindGroupsOps ++ renderOps cw ch))

lemma Vec3.sub_def (a b : Vec3) : a - b = ⟨a.x - b.x, a.y - b.y, a.z - b.z⟩ := rfl

lemma Vec3.add_def (a b : Vec3) : a + b = ⟨a.x + b.x, a.y + b.y, a.z + b.z⟩ := rfl

lemma sqrt_eq_of_sq {a b : ℝ} (hb : 0 ≤ b) (h : b ^ 2 = a) : Real.sqrt a = b := by
  rw [← h]; exact Real.sqrt_sq hb

lemma dot_neg_right (a b : Vec3) : dot a (Vec3.neg b) = -(dot a b) := by
  simp [dot, Vec3.neg]; ring

/-- C1: for every sphere, ray, tMin and tMax, `hit_sphere` reports no hit
when the discriminant `h^2 - a*c` is negative; otherwise it accepts the
smaller root `(h - sqrt(disc))/a` exactly when it lies in the open interval
`(tMin, tMax)`, else the larger root `(h + sqrt(disc))/a` when that does,
and reports no hit when both roots fall outside. -/
theorem hit_sphere_root_selection (s : Sphere) (r : Ray) (tmin tmax : ℝ) :
    (hs_disc s r < 0 → (hit_sphere s r tmin tmax).hit = false) ∧
    (0 ≤ hs_disc s r →
      ((tmin < hs_root1 s r ∧ hs_root1 s r < tmax →
         (hit_sphere s r tmin tmax).hit = true ∧
         (hit_sphere s r tmin tmax).t = hs_root1 s r) ∧
       (¬ (tmin < hs_root1 s r ∧ hs_root1 s r < tmax) →
         ((tmin < hs_root2 s r ∧ hs_root2 s r < tmax →
            (hit_sphere s r tmin tmax).hit = true ∧
            (hit_sphere s r tmin tmax).t = hs_root2 s r) ∧
          (¬ (tmin < hs_root2 s r ∧ hs_root2 s r < tmax) →
            (hit_sphere s r tmin tmax).hit = false))))) := by
  refine ⟨fun hd => ?_, fun hd => ⟨fun h1 => ?_, fun h1 => ⟨fun h2 => ?_, fun h2 => ?_⟩⟩⟩
  · simp [hit_sphere, if_pos hd, emptyHitRecord]
  · have hd' : ¬ hs_disc s r < 0 := not_lt.mpr hd
    have hc1 : ¬ (hs_root1 s r ≤ tmin ∨ tmax ≤ hs_root1 s r) := by
      push_neg; exact h1
    simp [hit_sphere, hd', hc1, hitRecordAt]
  · have hd' : ¬ hs_disc s r < 0 := not_lt.mpr hd
    have hc1 : hs_root1 s r ≤ tmin ∨ tmax ≤ hs_root1 s r := by
      rcases not_and_or.mp h1 with h | h
      · exact Or.inl (not_lt.mp h)
      · exact Or.inr (not_lt.mp h)
    have hc2 : ¬ (hs_root2 s r ≤ tmin ∨ tmax ≤ hs_root2 s r) := by
      push_neg; exact h2
    simp [hit_sphere, hd', hc1, hc2, hitRecordAt]
  · have hd' : ¬ hs_disc s r < 0 := not_lt.mpr hd
    have hc1 : hs_root1 s r ≤ tmin ∨ tmax ≤ hs_root1 s r := by
      rcases not_and_or.mp h1 with h | h
      · exact Or.inl (not_lt.mp h)
      · exact Or.inr (not_lt.mp h)
    have hc2 : hs_root2 s r ≤ tmin ∨ tmax ≤ hs_root2 s r := by
      rcases not_and_or.mp h2 with h | h
      · exact Or.inl (not_lt.mp h)
      · exact Or.inr (not_lt.mp h)
    simp [hit_sphere, hd', hc1, hc2, emptyHitRecord]

/-- C2: `setFaceNormal` sets the front-face flag exactly when the ray
direction opposes the outward normal, passes the normal through unchanged in
that case and negates it otherwise, and the returned normal never has
positive dot product with the ray direction. -/
theorem setFaceNormal_spec (rec1 : HitRecord) (r : Ray) (outwardNormal : Vec3) :
    ((setFaceNormal rec1 r outwardNormal).front_face = true ↔
       dot r.direction outwardNormal < 0) ∧
    (dot r.direction outwardNormal < 0 →
       (setFaceNormal rec1 r outwardNormal).normal = outwardNormal) ∧
    (¬ dot r.direction outwardNormal < 0 →
       (setFaceNormal rec1 r outwardNormal).normal = Vec3.neg outwardNormal) ∧
    dot r.direction (setFaceNormal rec1 r outwardNormal).normal ≤ 0 := by
  by_cases h : dot r.direction outwardNormal < 0
  · refine ⟨by simp [setFaceNormal, h], fun _ => by simp [setFaceNormal, h],
      fun h2 => absurd h h2, ?_⟩
    simpa [setFaceNormal, h] using le_of_lt h
  · have h0 : 0 ≤ dot r.direction outwardNormal := not_lt.mp h
    refine ⟨by simp [setFaceNormal, h], fun h2 => absurd h2 h,
      fun _ => by simp [setFaceNormal, h], ?_⟩
    have hneg := dot_neg_right r.direction outwardNormal
    simp only [setFaceNormal, if_neg h]
    rw [hneg]
    linarith

/-- C6: every kernel invocation whose coordinate reaches or exceeds the
image extent in either axis performs no write. -/
theorem kernelMain_out_of_bounds (dims coords : ℕ × ℕ)
    (h : coords.1 ≥ dims.1 ∨ coords.2 ≥ dims.2) :
    kernelMain dims coords = none := by
  simp [kernelMain, h]

/-- Witness for C6 at the spec's 401x225 example: the 51x29 workgroup grid
reaches coordinate x = 401, which writes nothing. -/
theorem kernelMain_out_of_bounds_witness :
    ((401 : ℕ) ≥ 401 ∨ (3 : ℕ) ≥ 225) ∧ kernelMain (401, 225) (401, 3) = none :=
  ⟨Or.inl le_rfl, kernelMain_out_of_bounds (401, 225) (401, 3) (Or.inl le_rfl)⟩

lemma hit_sphere_miss_of_neg_disc (s : Sphere) (r : Ray) (tmin tmax : ℝ)
    (hd : hs_disc s r < 0) : hit_sphere s r tmin tmax = emptyHitRecord := by
  unfold hit_sphere; rw [if_pos hd]

lemma hit_sphere_hit_false_eq (s : Sphere) (r : Ray) (tmin tmax : ℝ)
    (h : (hit_sphere s r tmin tmax).hit = false) :
    hit_sphere s r tmin tmax = emptyHitRecord := by
  unfold hit_sphere at h ⊢
  split_ifs at h ⊢ <;> first | rfl | (exfalso; simp [hitRecordAt] at h)

lemma axis_ray_disc :
    hs_disc theSphere ⟨⟨0, 0, 0⟩, ⟨0, 0, -1⟩⟩ = 1 / 4 := by
  simp [hs_disc, hs_a, hs_h, hs_c, hs_oc, dot, theSphere, Vec3.sub_def]
  norm_num

lemma axis_ray_root1 :
    hs_root1 theSphere ⟨⟨0, 0, 0⟩, ⟨0, 0, -1⟩⟩ = 1 / 2 := by
  unfold hs_root1
  rw [axis_ray_disc, sqrt_eq_of_sq (by norm_num : (0:ℝ) ≤ 1 / 2) (by norm_num)]
  simp [hs_h, hs_a, hs_oc, dot, theSphere, Vec3.sub_def]
  norm_num

lemma axis_ray_hit_record :
    hit_sphere theSphere ⟨⟨0, 0, 0⟩, ⟨0, 0, -1⟩⟩ 0 10000 =
      hitRecordAt theSphere ⟨⟨0, 0, 0⟩, ⟨0, 0, -1⟩⟩
        (hs_root1 theSphere ⟨⟨0, 0, 0⟩, ⟨0, 0, -1⟩⟩) := by
  unfold hit_sphere
  rw [if_neg (by rw [axis_ray_disc]; norm_num),
    if_neg (by rw [axis_ray_root1]; norm_num)]

lemma axis_ray_t :
    (hit_sphere theSphere ⟨⟨0, 0, 0⟩, ⟨0, 0, -1⟩⟩ 0 10000).t = 1 / 2 := by
  rw [axis_ray_hit_record]
  simpa [hitRecordAt] using axis_ray_root1

lemma axis_ray_normal :
    Vec3.normalize (rayAt ⟨⟨0, 0, 0⟩, ⟨0, 0, -1⟩⟩ (1 / 2) - ⟨0, 0, -1⟩) = ⟨0, 0, 1⟩ := by
  have hv : rayAt ⟨⟨0, 0, 0⟩, ⟨0, 0, -1⟩⟩ (1 / 2) - (⟨0, 0, -1⟩ : Vec3) = ⟨0, 0, 1 / 2⟩ := by
    simp [rayAt, Vec3.smul, Vec3.add_def, Vec3.sub_def]
    norm_num
  rw [hv]
  have hd : dot ⟨0, 0, 1 / 2⟩ ⟨0, 0, 1 / 2⟩ = 1 / 4 := by simp [dot]; norm_num
  unfold Vec3.normalize Vec3.length
  rw [hd, sqrt_eq_of_sq (by norm_num : (0:ℝ) ≤ 1 / 2) (by norm_num : (1 / 2 : ℝ) ^ 2 = 1 / 4)]
  simp [Vec3.mk.injEq]

lemma axis_ray_color :
    rayColor ⟨⟨0, 0, 0⟩, ⟨0, 0, -1⟩⟩ = ⟨0.5, 0.5, 1⟩ := by
  unfold rayColor shadeHit
  rw [axis_ray_t, if_pos (by norm_num : (1 / 2 : ℝ) > 0), axis_ray_normal]
  simp [Vec3.smul]
  norm_num

/-- C3 counterexample: on the ray from the origin straight toward the sphere
center, `rayColor` does not return the color `(1, 1, 0.5)` stated by the
spec. -/
theorem rayColor_axis_ray_ne_spec :
    rayColor ⟨⟨0, 0, 0⟩, ⟨0, 0, -1⟩⟩ ≠ ⟨1, 1, 0.5⟩ := by
  rw [axis_ray_color]
  intro h
  have hx := congrArg Vec3.x h
  norm_num at hx

/-- C3 amended: the ray from `(0,0,0)` toward `(0,0,-1)` hits the sphere at
`t = 0.5`; the shading normal is `(0,0,1)` and `rayColor` returns
`0.5 * (normal + 1)`, which is `(0.5, 0.5, 1)` — not the `(1, 1, 0.5)` the
spec names. -/
theorem rayColor_axis_ray :
    (hit_sphere theSphere ⟨⟨0, 0, 0⟩, ⟨0, 0, -1⟩⟩ 0 10000).t = 0.5 ∧
    Vec3.normalize (rayAt ⟨⟨0, 0, 0⟩, ⟨0, 0, -1⟩⟩ (1 / 2) - ⟨0, 0, -1⟩) = ⟨0, 0, 1⟩ ∧
    rayColor ⟨⟨0, 0, 0⟩, ⟨0, 0, -1⟩⟩ = Vec3.smul 0.5 ⟨0 + 1, 0 + 1, 1 + 1⟩ ∧
    rayColor ⟨⟨0, 0, 0⟩, ⟨0, 0, -1⟩⟩ = ⟨0.5, 0.5, 1⟩ := by
  refine ⟨by rw [axis_ray_t]; norm_num, axis_ray_normal, ?_, axis_ray_color⟩
  rw [axis_ray_color]
  simp [Vec3.smul]
  norm_num

lemma normalize_eval (v : Vec3) (L : ℝ) (hL : 0 ≤ L) (h : L ^ 2 = dot v v) :
    Vec3.normalize v = ⟨v.x / L, v.y / L, v.z / L⟩ := by
  unfold Vec3.normalize Vec3.length
  rw [sqrt_eq_of_sq hL h]

lemma shadeHit_pos_t (ray : Ray) (rec1 : HitRecord) (h : rec1.t > 0) :
    shadeHit ray rec1 = Vec3.smul 0.5
      ⟨(Vec3.normalize (rayAt ray rec1.t - ⟨0, 0, -1⟩)).x + 1,
       (Vec3.normalize (rayAt ray rec1.t - ⟨0, 0, -1⟩)).y + 1,
       (Vec3.normalize (rayAt ray rec1.t - ⟨0, 0, -1⟩)).z + 1⟩ := by
  unfold shadeHit
  rw [if_pos h]

lemma shadeHit_nonpos_t (ray : Ray) (rec1 : HitRecord) (h : ¬ rec1.t > 0) :
    shadeHit ray rec1 =
      lerp ⟨1, 1, 1⟩ ⟨0.5, 0.7, 1⟩ (0.5 * ((Vec3.normalize ray.direction).y + 1)) := by
  unfold shadeHit
  rw [if_neg h]

/-- C4 counterexample: the shading stage does consult the `t` field of a
record whose `hit` flag is false: on the same ray, two such records that
differ only in `t` are shaded to different colors, because `rayColor`
branches on `rec.t > 0.0`, not on `rec.hit`. -/
theorem shadeHit_reads_t_of_miss_record :
    shadeHit ⟨⟨0, 0, 0⟩, ⟨0, 0, 1⟩⟩ ⟨⟨0, 0, 0⟩, ⟨0, 0, 0⟩, 2, false, false⟩ ≠
      shadeHit ⟨⟨0, 0, 0⟩, ⟨0, 0, 1⟩⟩ ⟨⟨0, 0, 0⟩, ⟨0, 0, 0⟩, 0, false, false⟩ := by
  have hA : shadeHit ⟨⟨0, 0, 0⟩, ⟨0, 0, 1⟩⟩ ⟨⟨0, 0, 0⟩, ⟨0, 0, 0⟩, 2, false, false⟩ =
      ⟨0.5, 0.5, 1⟩ := by
    rw [shadeHit_pos_t _ _ (by norm_num)]
    have hv : rayAt ⟨⟨0, 0, 0⟩, ⟨0, 0, 1⟩⟩
        ((⟨⟨0, 0, 0⟩, ⟨0, 0, 0⟩, 2, false, false⟩ : HitRecord).t) - (⟨0, 0, -1⟩ : Vec3) =
        ⟨0, 0, 3⟩ := by
      simp [rayAt, Vec3.smul, Vec3.add_def, Vec3.sub_def]
      norm_num
    rw [hv, normalize_eval ⟨0, 0, 3⟩ 3 (by norm_num) (by norm_num [dot])]
    simp [Vec3.smul, Vec3.mk.injEq]
    norm_num
  have hB : shadeHit ⟨⟨0, 0, 0⟩, ⟨0, 0, 1⟩⟩ ⟨⟨0, 0, 0⟩, ⟨0, 0, 0⟩, 0, false, false⟩ =
      ⟨0.75, 0.85, 1⟩ := by
    rw [shadeHit_nonpos_t _ _ (by norm_num)]
    rw [show (⟨⟨0, 0, 0⟩, ⟨0, 0, 1⟩⟩ : Ray).direction = ⟨0, 0, 1⟩ from rfl,
      normalize_eval ⟨0, 0, 1⟩ 1 (by norm_num) (by norm_num [dot])]
    simp [lerp, Vec3.smul, Vec3.add_def, Vec3.mk.injEq]
    norm_num
  rw [hA, hB]
  intro h
  have hx := congrArg Vec3.x h
  norm_num at hx

/-- C4 amended: `rayColor` branches on `rec.t > 0.0` rather than on the
`hit` flag, so the `t` field of a missed record is read; but every record
`hit_sphere` returns with `hit = false` is the zero-initialised one with
`t = 0`, so on a miss `rayColor` returns the background gradient, which
depends only on the ray. -/
theorem rayColor_miss_gradient (ray : Ray)
    (hmiss : (hit_sphere theSphere ray 0 10000).hit = false) :
    (hit_sphere theSphere ray 0 10000).t = 0 ∧
    rayColor ray = lerp ⟨1, 1, 1⟩ ⟨0.5, 0.7, 1⟩
      (0.5 * ((Vec3.normalize ray.direction).y + 1)) := by
  have he := hit_sphere_hit_false_eq theSphere ray 0 10000 hmiss
  refine ⟨by rw [he]; simp [emptyHitRecord], ?_⟩
  unfold rayColor
  rw [he, shadeHit_nonpos_t _ _ (by simp [emptyHitRecord])]

/-- Witness for C4 at a concrete miss: the ray along the positive x axis has
negative discriminant, so `hit_sphere` misses and its record carries
`t = 0`. -/
theorem rayColor_miss_gradient_witness :
    (hit_sphere theSphere ⟨⟨0, 0, 0⟩, ⟨1, 0, 0⟩⟩ 0 10000).hit = false ∧
    (hit_sphere theSphere ⟨⟨0, 0, 0⟩, ⟨1, 0, 0⟩⟩ 0 10000).t = 0 := by
  have hd : hs_disc theSphere ⟨⟨0, 0, 0⟩, ⟨1, 0, 0⟩⟩ < 0 := by
    simp [hs_disc, hs_a, hs_h, hs_c, hs_oc, dot, theSphere, Vec3.sub_def]
    norm_num
  have hf : (hit_sphere theSphere ⟨⟨0, 0, 0⟩, ⟨1, 0, 0⟩⟩ 0 10000).hit = false := by
    rw [hit_sphere_miss_of_neg_disc _ _ 0 10000 hd]
    simp [emptyHitRecord]
  exact ⟨hf, (rayColor_miss_gradient ⟨⟨0, 0, 0⟩, ⟨1, 0, 0⟩⟩ hf).1⟩

/-- C7: for every ray that misses the sphere, `rayColor` returns the linear
blend of white and sky blue with weight `0.5 * (unit_direction.y + 1)`; a
unit direction with `y = -1` yields exactly white and a unit direction with
`y = 1` yields exactly `(0.5, 0.7, 1.0)`. -/
theorem rayColor_background (ray : Ray)
    (hmiss : (hit_sphere theSphere ray 0 10000).hit = false) :
    rayColor ray = lerp ⟨1, 1, 1⟩ ⟨0.5, 0.7, 1⟩
      (0.5 * ((Vec3.normalize ray.direction).y + 1)) ∧
    (dot ray.direction ray.direction = 1 → ray.direction.y = -1 →
      rayColor ray = ⟨1, 1, 1⟩) ∧
    (dot ray.direction ray.direction = 1 → ray.direction.y = 1 →
      rayColor ray = ⟨0.5, 0.7, 1⟩) := by
  have he := hit_sphere_hit_false_eq theSphere ray 0 10000 hmiss
  have hmain : rayColor ray = lerp ⟨1, 1, 1⟩ ⟨0.5, 0.7, 1⟩
      (0.5 * ((Vec3.normalize ray.direction).y + 1)) := by
    unfold rayColor
    rw [he, shadeHit_nonpos_t _ _ (by simp [emptyHitRecord])]
  refine ⟨hmain, fun hu hy => ?_, fun hu hy => ?_⟩
  · rw [hmain]
    have hny : (Vec3.normalize ray.direction).y = -1 := by
      simp [Vec3.normalize, Vec3.length, hu, Real.sqrt_one, hy]
    rw [hny]
    simp [lerp, Vec3.smul, Vec3.add_def, Vec3.mk.injEq]
  · rw [hmain]
    have hny : (Vec3.normalize ray.direction).y = 1 := by
      simp [Vec3.normalize, Vec3.length, hu, Real.sqrt_one, hy]
    rw [hny]
    simp [lerp, Vec3.smul, Vec3.add_def, Vec3.mk.injEq]
    norm_num

/-- Witness for C7: the straight-down unit ray misses the sphere and is
shaded exactly white. -/
theorem rayColor_background_witness :
    (hit_sphere theSphere ⟨⟨0, 0, 0⟩, ⟨0, -1, 0⟩⟩ 0 10000).hit = false ∧
    rayColor ⟨⟨0, 0, 0⟩, ⟨0, -1, 0⟩⟩ = ⟨1, 1, 1⟩ := by
  have hd : hs_disc theSphere ⟨⟨0, 0, 0⟩, ⟨0, -1, 0⟩⟩ < 0 := by
    simp [hs_disc, hs_a, hs_h, hs_c, hs_oc, dot, theSphere, Vec3.sub_def]
    norm_num
  have hf : (hit_sphere theSphere ⟨⟨0, 0, 0⟩, ⟨0, -1, 0⟩⟩ 0 10000).hit = false := by
    rw [hit_sphere_miss_of_neg_disc _ _ 0 10000 hd]
    simp [emptyHitRecord]
  exact ⟨hf, (rayColor_background ⟨⟨0, 0, 0⟩, ⟨0, -1, 0⟩⟩ hf).2.1
    (by norm_num [dot]) (by norm_num)⟩

lemma pixelUV_sample : pixelUV (5, 4) (2, 0) = ((0 : ℝ), -(3 / 4)) := by
  simp [pixelUV, Prod.ext_iff]
  norm_num

lemma createRay_sample_direction :
    (createRay (5, 4) (pixelUV (5, 4) (2, 0))).direction = ⟨0, -(3 / 5), -(4 / 5)⟩ := by
  rw [pixelUV_sample]
  have h1 : (createRay (5, 4) ((0 : ℝ), -(3 / 4))).direction =
      Vec3.normalize ⟨0 * (((5 : ℕ) : ℝ) / ((4 : ℕ) : ℝ)), -(3 / 4), -1⟩ := rfl
  have h2 : (⟨0 * (((5 : ℕ) : ℝ) / ((4 : ℕ) : ℝ)), -(3 / 4), -1⟩ : Vec3) =
      ⟨0, -(3 / 4), -1⟩ := by
    simp
  rw [h1, h2, normalize_eval ⟨0, -(3 / 4), -1⟩ (5 / 4) (by norm_num) (by norm_num [dot])]
  simp [Vec3.mk.injEq]
  norm_num

/-- C5 counterexample: at image size 5x4, for the pixel (2,0) the ray handed
to `rayColor` does not carry the raw direction `(uv.x * aspectRatio, uv.y,
-1.0)`: `createRay` has already normalized it (to `(0, -3/5, -4/5)` instead
of `(0, -3/4, -1)`). -/
theorem createRay_not_unnormalized :
    (createRay (5, 4) (pixelUV (5, 4) (2, 0))).direction ≠
      rawDirection (5, 4) (pixelUV (5, 4) (2, 0)) := by
  rw [createRay_sample_direction]
  intro h
  have hy := congrArg Vec3.y h
  rw [pixelUV_sample] at hy
  simp [rawDirection] at hy
  norm_num at hy

/-- C5 amended: `createRay` normalizes the camera direction before
constructing the ray: the constructed direction is
`normalize(uv.x * aspectRatio, uv.y, -1.0)`, and whenever the raw direction
is not already unit length the ray's direction differs from it.  (The later
`normalize` inside `rayColor` is therefore idempotent, not the first
normalization.) -/
theorem createRay_normalizes (dims : ℕ × ℕ) (uv : ℝ × ℝ) :
    (createRay dims uv).direction = Vec3.normalize (rawDirection dims uv) ∧
    (dot (rawDirection dims uv) (rawDirection dims uv) ≠ 1 →
      (createRay dims uv).direction ≠ rawDirection dims uv) := by
  refine ⟨rfl, fun hne heq => hne ?_⟩
  have heq' : Vec3.normalize (rawDirection dims uv) = rawDirection dims uv := heq
  have hd0 : 0 ≤ dot (rawDirection dims uv) (rawDirection dims uv) := by
    have hx : dot (rawDirection dims uv) (rawDirection dims uv) =
        (rawDirection dims uv).x * (rawDirection dims uv).x +
        (rawDirection dims uv).y * (rawDirection dims uv).y +
        (rawDirection dims uv).z * (rawDirection dims uv).z := rfl
    nlinarith [sq_nonneg ((rawDirection dims uv).x), sq_nonneg ((rawDirection dims uv).y),
      sq_nonneg ((rawDirection dims uv).z)]
  have hzc : (rawDirection dims uv).z / Real.sqrt (dot (rawDirection dims uv)
      (rawDirection dims uv)) = (rawDirection dims uv).z := congrArg Vec3.z heq'
  have hz : (rawDirection dims uv).z = -1 := rfl
  rw [hz] at hzc
  have hLne : Real.sqrt (dot (rawDirection dims uv) (rawDirection dims uv)) ≠ 0 := by
    intro h0
    rw [h0] at hzc
    norm_num at hzc
  have hL1 : Real.sqrt (dot (rawDirection dims uv) (rawDirection dims uv)) = 1 := by
    have := (div_eq_iff hLne).mp hzc
    linarith
  have hsq := Real.sq_sqrt hd0
  rw [hL1] at hsq
  linarith [hsq]

/-- Witness for C5's amended claim at image size 5x4, pixel (2,0): the raw
direction has squared length 25/16, so the constructed ray direction differs
from it. -/
theorem createRay_normalizes_witness :
    dot (rawDirection (5, 4) (pixelUV (5, 4) (2, 0)))
      (rawDirection (5, 4) (pixelUV (5, 4) (2, 0))) ≠ 1 ∧
    (createRay (5, 4) (pixelUV (5, 4) (2, 0))).direction ≠
      rawDirection (5, 4) (pixelUV (5, 4) (2, 0)) := by
  have hne : dot (rawDirection (5, 4) (pixelUV (5, 4) (2, 0)))
      (rawDirection (5, 4) (pixelUV (5, 4) (2, 0))) ≠ 1 := by
    rw [pixelUV_sample]
    norm_num [rawDirection, dot]
  exact ⟨hne, (createRay_normalizes (5, 4) (pixelUV (5, 4) (2, 0))).2 hne⟩

lemma kernelMain_target (dims c : ℕ × ℕ) :
    kernelMain dims c = none ∨ kernelMain dims c = some (c, pixelColor dims c) := by
  unfold kernelMain
  split_ifs with h
  · exact Or.inl rfl
  · exact Or.inr rfl

lemma kernelStep_comm (dims : ℕ × ℕ) (im : (ℕ × ℕ) → Option (Vec3 × ℝ)) (a b : ℕ × ℕ) :
    writeTexture (writeTexture im (kernelMain dims a)) (kernelMain dims b) =
      writeTexture (writeTexture im (kernelMain dims b)) (kernelMain dims a) := by
  by_cases hab : a = b
  · subst hab; rfl
  · rcases kernelMain_target dims a with ha | ha <;>
      rcases kernelMain_target dims b with hb | hb <;> rw [ha, hb]
    all_goals try rfl
    funext q
    simp only [writeTexture]
    by_cases hqa : q = a
    · subst hqa
      simp [hab]
    · by_cases hqb : q = b
      · subst hqb
        simp [hqa]
      · simp [hqa, hqb]

lemma runKernel_perm_all (dims : ℕ × ℕ) (l₁ l₂ : List (ℕ × ℕ)) (hp : l₁.Perm l₂) :
    ∀ img, runKernel dims l₁ img = runKernel dims l₂ img := by
  induction hp with
  | nil => intro img; rfl
  | cons x h ih =>
    intro img
    exact ih (writeTexture img (kernelMain dims x))
  | swap x y l =>
    intro img
    show runKernel dims l (writeTexture (writeTexture img (kernelMain dims y))
        (kernelMain dims x)) =
      runKernel dims l (writeTexture (writeTexture img (kernelMain dims x))
        (kernelMain dims y))
    rw [kernelStep_comm]
  | trans h₁ h₂ ih₁ ih₂ =>
    intro img
    exact (ih₁ img).trans (ih₂ img)

lemma runKernel_not_mem (dims : ℕ × ℕ) (l : List (ℕ × ℕ)) :
    ∀ (img : (ℕ × ℕ) → Option (Vec3 × ℝ)) (q : ℕ × ℕ), q ∉ l →
      runKernel dims l img q = img q := by
  induction l with
  | nil => intro img q _; rfl
  | cons a l ih =>
    intro img q hq
    have hqa : q ≠ a := fun h => hq (h ▸ List.mem_cons_self a l)
    have hql : q ∉ l := fun h => hq (List.mem_cons_of_mem a h)
    have hstep : runKernel dims (a :: l) img =
        runKernel dims l (writeTexture img (kernelMain dims a)) := rfl
    rw [hstep, ih _ q hql]
    rcases kernelMain_target dims a with h | h <;> rw [h]
    · rfl
    · simp [writeTexture, hqa]

lemma runKernel_mem (dims : ℕ × ℕ) (l : List (ℕ × ℕ)) :
    ∀ (img : (ℕ × ℕ) → Option (Vec3 × ℝ)) (q : ℕ × ℕ), q ∈ l →
      q.1 < dims.1 → q.2 < dims.2 →
      runKernel dims l img q = some (pixelColor dims q) := by
  induction l with
  | nil => intro img q hq _ _; exact absurd hq (List.not_mem_nil q)
  | cons a l ih =>
    intro img q hq h1 h2
    have hstep : runKernel dims (a :: l) img =
        runKernel dims l (writeTexture img (kernelMain dims a)) := rfl
    by_cases hql : q ∈ l
    · rw [hstep]
      exact ih _ q hql h1 h2
    · have hqa : q = a := by
        rcases List.mem_cons.mp hq with h | h
        · exact h
        · exact absurd h hql
      subst hqa
      rw [hstep, runKernel_not_mem dims l _ q hql]
      have hk : kernelMain dims q = some (q, pixelColor dims q) := by
        unfold kernelMain
        rw [if_neg]
        push_neg
        exact ⟨h1, h2⟩
      rw [hk]
      simp [writeTexture]

/-- C10: the kernel is deterministic and its invocations independent: any
two schedulings of the same multiset of invocations produce the same image
(each invocation writes only its own pixel and reads no other invocation's
output), and every in-bounds invocation leaves its pixel holding a color
that is a function of its coordinate and the image dimensions alone. -/
theorem kernel_deterministic (dims : ℕ × ℕ) (l₁ l₂ : List (ℕ × ℕ))
    (img : (ℕ × ℕ) → Option (Vec3 × ℝ)) (hperm : l₁.Perm l₂) :
    runKernel dims l₁ img = runKernel dims l₂ img ∧
    ∀ q, q ∈ l₁ → q.1 < dims.1 → q.2 < dims.2 →
      runKernel dims l₁ img q = some (pixelColor dims q) :=
  ⟨runKernel_perm_all dims l₁ l₂ hperm img,
   fun q hq h1 h2 => runKernel_mem dims l₁ img q hq h1 h2⟩

/-- Witness for C10 on a 1x2 image: the two invocations executed in either
order produce the same image. -/
theorem kernel_deterministic_witness :
    ([((0 : ℕ), (0 : ℕ)), (0, 1)].Perm [(0, 1), (0, 0)]) ∧
    runKernel (1, 2) [(0, 0), (0, 1)] (fun _ => none) =
      runKernel (1, 2) [(0, 1), (0, 0)] (fun _ => none) := by
  have hp : ([((0 : ℕ), (0 : ℕ)), (0, 1)].Perm [(0, 1), (0, 0)]) :=
    List.Perm.swap (0, 1) (0, 0) []
  exact ⟨hp, (kernel_deterministic (1, 2) _ _ (fun _ => none) hp).1⟩

lemma mainHeight_eq : mainHeight = 225 := by
  unfold mainHeight mainWidth aspectRation
  rw [show ((400 : ℕ) : ℚ) / (16 / 9 : ℚ) = (225 : ℚ) by norm_num]
  simp

/-- C8 counterexample: starting from the initial build and performing one
resize rebuild leaves two live texture instances, not one: the rebuild never
destroys the prior Output Image. -/
theorem rebuild_leaves_two_live_textures :
    ((applyOps (applyOps initGpuState createComputeShaderOps)
        (resizeCallback (800, 600) 8192).2).live).length ≠ 1 := by
  have h : (applyOps (applyOps initGpuState createComputeShaderOps)
      (resizeCallback (800, 600) 8192).2).live = [1, 0] := by
    simp [applyOps, applyOp, initGpuState, createComputeShaderOps, resizeCallback,
      updateBindGroupsOps, renderOps]
  rw [h]
  norm_num

/-- C8 amended: the resize rebuild contains no destroy operation; it creates
the new Output Image while the prior one stays live (the live list grows by
exactly the new texture), and both binding sets are recreated against the
newly created texture. -/
theorem rebuild_no_destroy (s : GpuState) (req : ℕ × ℕ) (m : ℕ) :
    (resizeCallback req m).2.countP (fun op => op.isDestroy) = 0 ∧
    (applyOps s (resizeCallback req m).2).live = s.nextId :: s.live ∧
    (applyOps s (resizeCallback req m).2).computeBound = some s.nextId ∧
    (applyOps s (resizeCallback req m).2).renderBound = some s.nextId := by
  refine ⟨?_, ?_, ?_, ?_⟩ <;>
    simp [resizeCallback, createComputeShaderOps, updateBindGroupsOps, renderOps,
      applyOps, applyOp, GpuOp.isDestroy, List.countP_cons, List.countP_nil]

/-- C9 counterexample: a resize notification requesting 800x600 under device
limit 8192 does not apply the clamped requested size: the callback applies
the fixed base size 400x225 instead. -/
theorem resize_ignores_requested :
    (resizeCallback (800, 600) 8192).1 ≠ (max 1 (min 800 8192), max 1 (min 600 8192)) := by
  have h1 : (resizeCallback (800, 600) 8192).1 = (400, 225) := by
    simp [resizeCallback, mainWidth, mainHeight_eq]
  rw [h1]
  decide

/-- C9 amended: on every surface-size notification the callback sets the
presentation surface and Output Image dimensions to the fixed base size
400x225 clamped to `[1, deviceMaxDimension]` — the requested size is
ignored — reconfigures the surface at those dimensions, rebuilds the
compute resources and bind groups, and ends by immediately rendering. -/
theorem resize_applies_base_size (req₁ req₂ : ℕ × ℕ) (m : ℕ) :
    (resizeCallback req₁ m).1 = (max 1 (min 400 m), max 1 (min 225 m)) ∧
    resizeCallback req₁ m = resizeCallback req₂ m ∧
    (resizeCallback req₁ m).2 =
      GpuOp.configureContext (max 1 (min 400 m)) (max 1 (min 225 m)) ::
        (createComputeShaderOps ++ updateBindGroupsOps ++
          renderOps (max 1 (min 400 m)) (max 1 (min 225 m))) := by
  refine ⟨?_, rfl, ?_⟩ <;> simp [resizeCallback, mainWidth, mainHeight_eq]
